import Mathlib

/-!
Verification of the Kalpa Raycast extension's client layer: the resilient
request pipeline (`fetchWithRetry`), the token guard (`parseJwtClaims`,
`tokenIsExpired`, `ensureValidTokenOrToast`), and the aggregation/ranking
helpers (`useAllLinks`, `extractKeywords`, `matchesSearch`, `sortByRelevance`).

JavaScript host primitives (the `fetch` transport, `JSON.parse`,
`Buffer.from(..., "base64")`, `Date.now`, toast display) are modelled as
explicit parameters or abstract environment fields; everything written in the
repository itself is translated definition-for-definition.
-/

namespace Kalpa

/-! ## String helpers (JS `startsWith` / `includes` over character lists) -/

/-- Character-list version of JS `String.prototype.startsWith`:
`isPrefixL needle hay` is true iff `needle` is a prefix of `hay`. -/
def isPrefixL : List Char → List Char → Bool
  | [], _ => true
  | _ :: _, [] => false
  | a :: as, b :: bs => a == b && isPrefixL as bs

/-- Character-list version of JS `String.prototype.includes`:
`containsL needle hay` is true iff `needle` occurs contiguously in `hay`. -/
def containsL (q : List Char) : List Char → Bool
  | [] => isPrefixL q []
  | c :: cs => isPrefixL q (c :: cs) || containsL q cs

/-- JS `s.startsWith(q)`. -/
def strStartsWith (s q : String) : Bool := isPrefixL q.data s.data

/-- JS `s.includes(q)`. -/
def strIncludes (s q : String) : Bool := containsL q.data s.data

/-- JS `s.toLowerCase()`, modelled character-wise (the strings this client
lower-cases are ASCII titles, domains, tag and universe names). -/
def jsToLower (s : String) : String := String.mk (s.data.map Char.toLower)

/-- JS `s.trim()`: strip leading and trailing whitespace. -/
def jsTrim (s : String) : String :=
  String.mk (((s.data.dropWhile Char.isWhitespace).reverse.dropWhile Char.isWhitespace).reverse)

/-- JS `s.split(".")` over the character list (`cur` holds the pending
segment reversed). -/
def splitOnDotGo (cur : List Char) : List Char → List (List Char)
  | [] => [cur.reverse]
  | c :: cs =>
    if c = '.' then cur.reverse :: splitOnDotGo [] cs
    else splitOnDotGo (c :: cur) cs

/-- JS `s.split(".")`: `""` gives `[""]`, adjacent separators give empty
segments. -/
def jsSplitDot (s : String) : List String :=
  (splitOnDotGo [] s.data).map (fun cs => String.mk cs)

theorem isPrefixL_self (l : List Char) : isPrefixL l l = true := by
  induction l with
  | nil => rfl
  | cons c cs ih => simp [isPrefixL, ih]

theorem containsL_of_isPrefixL {q s : List Char} (h : isPrefixL q s = true) :
    containsL q s = true := by
  cases s with
  | nil => simpa [containsL] using h
  | cons c cs => simp [containsL, h]

/-! ## Data model (`src/types.ts`) -/

/-- `KalpaTag` from `types.ts` (fields the client layer reads). -/
structure KalpaTag where
  name : String
  color : String
deriving Repr, DecidableEq

/-- `KalpaUniverse` from `types.ts` (fields the client layer reads). -/
structure KalpaUniverse where
  name : String
  color : String
deriving Repr, DecidableEq

/-- `KalpaLink` from `types.ts`. `_creationTime` is written `creationTime`
(Lean names cannot begin with an underscore in this development); timestamps
are epoch milliseconds, modelled as `Int`. -/
structure KalpaLink where
  creationTime : Int
  url : String
  title : String
  domain : String
  linkType : Option String
  is_read : Bool
  is_archived : Bool
  summary_preview : Option String
  tags : Option (List KalpaTag)
  universes : Option (List KalpaUniverse)
deriving Repr, DecidableEq

/-! ## Stable sort modelling JS `Array.prototype.sort` with a comparator

ECMAScript 2019 requires `Array.prototype.sort` to be stable.  For a
consistent comparator this is the unique order in which an element `x` is
placed after exactly those elements that compare strictly before it, ties
keeping input order.  Insertion sort with `insertCmp` realises that order. -/

/-- Insert `x` into `l`, skipping exactly the elements that compare strictly
before `x` (`cmp y x < 0`), so that `x` lands before any element it ties
with — the stable position for an element that occurs earlier in the input. -/
def insertCmp (cmp : α → α → Int) (x : α) : List α → List α
  | [] => [x]
  | y :: ys => if cmp y x < 0 then y :: insertCmp cmp x ys else x :: y :: ys

/-- Stable sort by a JS-style comparator (negative means "first argument
sorts earlier"). -/
def stableSortWith (cmp : α → α → Int) : List α → List α
  | [] => []
  | x :: xs => insertCmp cmp x (stableSortWith cmp xs)

theorem insertCmp_perm (cmp : α → α → Int) (x : α) (l : List α) :
    (insertCmp cmp x l).Perm (x :: l) := by
  induction l with
  | nil => simp [insertCmp]
  | cons y ys ih =>
    by_cases h : cmp y x < 0
    · simp only [insertCmp, if_pos h]
      exact (ih.cons y).trans (List.Perm.swap x y ys)
    · simp [insertCmp, if_neg h]

theorem stableSortWith_perm (cmp : α → α → Int) (l : List α) :
    (stableSortWith cmp l).Perm l := by
  induction l with
  | nil => simp [stableSortWith]
  | cons x xs ih =>
    exact (insertCmp_perm cmp x (stableSortWith cmp xs)).trans (ih.cons x)

theorem mem_insertCmp {cmp : α → α → Int} {x a : α} {l : List α} :
    a ∈ insertCmp cmp x l ↔ a = x ∨ a ∈ l := by
  constructor
  · intro h
    have := (insertCmp_perm cmp x l).mem_iff.mp h
    simpa using this
  · intro h
    exact (insertCmp_perm cmp x l).mem_iff.mpr (by simpa using h)

theorem insertCmp_pairwise {cmp : α → α → Int}
    (htot : ∀ u v, ¬ cmp u v < 0 → cmp v u ≤ 0)
    (htrans : ∀ u v w, cmp u v ≤ 0 → cmp v w ≤ 0 → cmp u w ≤ 0)
    (x : α) (l : List α) (hl : l.Pairwise (fun u v => cmp u v ≤ 0)) :
    (insertCmp cmp x l).Pairwise (fun u v => cmp u v ≤ 0) := by
  induction l with
  | nil => simp [insertCmp]
  | cons y ys ih =>
    rw [List.pairwise_cons] at hl
    obtain ⟨hy, hys⟩ := hl
    by_cases h : cmp y x < 0
    · simp only [insertCmp, if_pos h]
      rw [List.pairwise_cons]
      refine ⟨?_, ih hys⟩
      intro z hz
      rcases mem_insertCmp.mp hz with rfl | hz
      · exact le_of_lt h
      · exact hy z hz
    · simp only [insertCmp, if_neg h]
      rw [List.pairwise_cons]
      refine ⟨?_, List.pairwise_cons.mpr ⟨hy, hys⟩⟩
      intro z hz
      rcases List.mem_cons.mp hz with rfl | hz
      · exact htot _ _ h
      · exact htrans x y z (htot y x h) (hy z hz)

theorem stableSortWith_pairwise {cmp : α → α → Int}
    (htot : ∀ u v, ¬ cmp u v < 0 → cmp v u ≤ 0)
    (htrans : ∀ u v w, cmp u v ≤ 0 → cmp v w ≤ 0 → cmp u w ≤ 0)
    (l : List α) :
    (stableSortWith cmp l).Pairwise (fun u v => cmp u v ≤ 0) := by
  induction l with
  | nil => simp [stableSortWith]
  | cons x xs ih => exact insertCmp_pairwise htot htrans x _ ih

theorem insertCmp_filter_of_pos {cmp : α → α → Int} {p : α → Bool} {x : α}
    (hx : p x = true) (hb : ∀ y, p y = true → ¬ cmp y x < 0) (l : List α) :
    (insertCmp cmp x l).filter p = x :: l.filter p := by
  induction l with
  | nil => simp [insertCmp, hx]
  | cons y ys ih =>
    by_cases h : cmp y x < 0
    · have hpy : p y = false := by
        by_contra hcon
        exact hb y (by simpa using hcon) h
      simp [insertCmp, if_pos h, List.filter_cons, hpy, ih]
    · simp [insertCmp, if_neg h, List.filter_cons, hx]

theorem insertCmp_filter_of_neg {cmp : α → α → Int} {p : α → Bool} {x : α}
    (hx : p x = false) (l : List α) :
    (insertCmp cmp x l).filter p = l.filter p := by
  induction l with
  | nil => simp [insertCmp, hx]
  | cons y ys ih =>
    by_cases h : cmp y x < 0
    · simp [insertCmp, if_pos h, List.filter_cons, ih]
    · simp [insertCmp, if_neg h, List.filter_cons, hx]

/-- Stability: for a predicate that only keeps mutually tying elements
(no kept element compares strictly before another kept element), the stable
sort preserves the subsequence of kept elements exactly. -/
theorem stableSortWith_filter {cmp : α → α → Int} {p : α → Bool}
    (hkey : ∀ u v, p u = true → p v = true → ¬ cmp u v < 0) (l : List α) :
    (stableSortWith cmp l).filter p = l.filter p := by
  induction l with
  | nil => simp [stableSortWith]
  | cons x xs ih =>
    by_cases hx : p x = true
    · rw [stableSortWith, insertCmp_filter_of_pos hx (fun y hy => hkey y x hy hx), ih,
        List.filter_cons, if_pos hx]
    · have hx' : p x = false := by simpa using hx
      rw [stableSortWith, insertCmp_filter_of_neg hx', ih, List.filter_cons, if_neg (by simp [hx'])]

/-! ## Search helpers (`src/utils/helpers.ts`) -/

/-- `formatDomain` from `helpers.ts`: `domain.replace(/^www\./, "")` removes
one leading `"www."` (case-sensitively, as the regex has no `i` flag). -/
def formatDomain (domain : String) : String :=
  if strStartsWith domain "www." then String.mk (domain.data.drop 4) else domain

mutual

/-- JS `str.split(/\s+/)` state after consuming a whitespace run: a further
whitespace character is absorbed, a non-whitespace character starts the next
token, end of input yields a final empty token. -/
def jsSplitWsSkip : List Char → List (List Char)
  | [] => [[]]
  | c :: cs =>
    if c.isWhitespace then jsSplitWsSkip cs
    else jsSplitWsGo [c] cs

/-- JS `str.split(/\s+/)` state inside a token (`cur` holds the token
reversed): whitespace ends the token, end of input emits it. -/
def jsSplitWsGo (cur : List Char) : List Char → List (List Char)
  | [] => [cur.reverse]
  | c :: cs =>
    if c.isWhitespace then cur.reverse :: jsSplitWsSkip cs
    else jsSplitWsGo (c :: cur) cs

end

/-- JS `s.split(/\s+/)`: split at maximal whitespace runs; a leading or
trailing run contributes an empty-string element, and `"".split(/\s+/)`
is `[""]`. -/
def jsSplitWs (s : String) : List String :=
  (jsSplitWsGo [] s.data).map (fun cs => String.mk cs)

/-- Fuel-driven loop of `jsSetDedup`; the fuel starts at the list length,
which bounds the recursion depth (each step filters the tail). -/
def jsSetDedupGo : Nat → List String → List String
  | _, [] => []
  | 0, x :: _ => [x]
  | fuel + 1, x :: xs => x :: jsSetDedupGo fuel (xs.filter (fun y => y ≠ x))

/-- JS `[...new Set(xs)]`: deduplicate keeping the first occurrence of each
element, in order. -/
def jsSetDedup (l : List String) : List String := jsSetDedupGo l.length l

/-- `extractKeywords` from `helpers.ts`: lower-cased title words, the
formatted domain lower-cased, tag names, universe names, and the link type
(when present and truthy), deduplicated as a JS `Set`. -/
def extractKeywords (link : KalpaLink) : List String :=
  let titleWords := jsSplitWs (jsToLower link.title)
  let domainKw := [jsToLower (formatDomain link.domain)]
  let tagKws := match link.tags with
    | some ts => ts.map (fun t => jsToLower t.name)
    | none => []
  let universeKws := match link.universes with
    | some us => us.map (fun u => jsToLower u.name)
    | none => []
  let typeKws := match link.linkType with
    | some lt => if lt = "" then [] else [lt]
    | none => []
  jsSetDedup (titleWords ++ domainKw ++ tagKws ++ universeKws ++ typeKws)

/-- `matchesSearch` from `helpers.ts`: the empty query matches everything;
otherwise the lower-cased query must occur in some derived keyword, the
lower-cased title, the lower-cased URL, or the lower-cased summary preview. -/
def matchesSearch (link : KalpaLink) (query : String) : Bool :=
  if query = "" then true
  else
    let lowerQuery := jsToLower query
    let keywords := extractKeywords link
    if keywords.any (fun k => strIncludes k lowerQuery) then true
    else if strIncludes (jsToLower link.title) lowerQuery then true
    else if strIncludes (jsToLower link.url) lowerQuery then true
    else
      match link.summary_preview with
      | some s => strIncludes (jsToLower s) lowerQuery
      | none => false

/-- The comparator passed to `sort` in `sortByRelevance` for a non-empty
query (`lowerQuery` is the lower-cased query): exact title match first, then
title-starts-with, then title-contains, then newest first. -/
def relevanceCmp (lowerQuery : String) (a b : KalpaLink) : Int :=
  let aExactTitle := jsToLower a.title == lowerQuery
  let bExactTitle := jsToLower b.title == lowerQuery
  if aExactTitle && !bExactTitle then -1
  else if bExactTitle && !aExactTitle then 1
  else
    let aStartsTitle := strStartsWith (jsToLower a.title) lowerQuery
    let bStartsTitle := strStartsWith (jsToLower b.title) lowerQuery
    if aStartsTitle && !bStartsTitle then -1
    else if bStartsTitle && !aStartsTitle then 1
    else
      let aContainsTitle := strIncludes (jsToLower a.title) lowerQuery
      let bContainsTitle := strIncludes (jsToLower b.title) lowerQuery
      if aContainsTitle && !bContainsTitle then -1
      else if bContainsTitle && !aContainsTitle then 1
      else b.creationTime - a.creationTime

/-- The comparator `(a, b) => b._creationTime - a._creationTime` (newest
first), used by `sortByRelevance` without a query and by `useAllLinks`. -/
def creationCmp (a b : KalpaLink) : Int := b.creationTime - a.creationTime

/-- `sortByRelevance` from `helpers.ts`; `[...links].sort(cmp)` is modelled
as a stable sort of the (immutable) input list. -/
def sortByRelevance (links : List KalpaLink) (query : String) : List KalpaLink :=
  if query = "" then stableSortWith creationCmp links
  else stableSortWith (relevanceCmp (jsToLower query)) links

/-! ## Aggregation (`useAllLinks` in `src/hooks/useKalpa.ts`) -/

/-- `allLinks.sort((a, b) => b._creationTime - a._creationTime)`. -/
def sortByCreation (links : List KalpaLink) : List KalpaLink :=
  stableSortWith creationCmp links

/-- The `try` body of `useAllLinks`: the three sub-fetches run sequentially
(each modelled by its `Except` outcome: `.error msg` for a thrown `Error`
with that message), then the pages are concatenated and sorted by creation
time.  A failure of an earlier fetch prevents the later ones from running. -/
def useAllLinksBody (g v c : Except String (List KalpaLink)) :
    Except String (List KalpaLink) := do
  let lg ← g
  let lv ← v
  let lc ← c
  pure (sortByCreation (lg ++ lv ++ lc))

/-- `useAllLinks`'s fetch function including its `catch`: an error whose
message contains `"Authentication"` is downgraded to an empty result; any
other error is rethrown unchanged. -/
def useAllLinksFetch (g v c : Except String (List KalpaLink)) :
    Except String (List KalpaLink) :=
  match useAllLinksBody g v c with
  | .ok r => .ok r
  | .error e => if strIncludes e "Authentication" then .ok [] else .error e

/-! ## Resilient request pipeline (`KalpaClient` in `src/utils/kalpa-client.ts`) -/

/-- An HTTP response as the client observes it: status code and body text.
`fetchWithRetry` never inspects either field. -/
structure HttpResponse where
  status : Nat
  bodyText : String
deriving Repr, DecidableEq

/-- JS `Response.ok`: status in the 2xx range. -/
def HttpResponse.isOk (r : HttpResponse) : Bool :=
  decide (200 ≤ r.status) && decide (r.status < 300)

deriving instance DecidableEq for Except

/-- Observable outcome of one `fetchWithRetry` call: the value returned or
error thrown, the number of attempts made, the list of backoff delays slept
(in order, milliseconds), and the "Connection Failed" toast message when it
was shown.  Thrown `Error`s are modelled by their message strings. -/
structure RetryTrace where
  result : Except String HttpResponse
  attempts : Nat
  delays : List Nat
  failureToastMessage : Option String
deriving Repr, DecidableEq

/-- The loop of `fetchWithRetry` from attempt index `attempt` on, for a
transport (`fetchWithTimeout`) whose behaviour on attempt `i` is
`transport i`: a non-throwing response returns immediately; a thrown error
sleeps `300 * 2 ^ attempt` ms when attempts remain, and after the final
attempt shows the "Connection Failed" toast and rethrows the last error. -/
def fetchWithRetryGo (transport : Nat → Except String HttpResponse)
    (retries attempt : Nat) : Nat → RetryTrace
  | 0 =>
    match transport attempt with
    | .ok r => ⟨.ok r, 1, [], none⟩
    | .error e =>
      ⟨.error e, 1, [],
        some ("Could not reach Kalpa after " ++ toString (retries + 1) ++ " attempts")⟩
  | remaining + 1 =>
    match transport attempt with
    | .ok r => ⟨.ok r, 1, [], none⟩
    | .error _ =>
      let t := fetchWithRetryGo transport retries (attempt + 1) remaining
      ⟨t.result, t.attempts + 1, (300 * 2 ^ attempt) :: t.delays, t.failureToastMessage⟩

/-- `fetchWithRetry(url, options, retries)`: run the attempt loop from
attempt 0.  The loop's guard `attempt < retries` is represented by the
structurally decreasing count `remaining = retries - attempt` of attempts
left after the current one, which starts at `retries`. -/
def fetchWithRetry (transport : Nat → Except String HttpResponse)
    (retries : Nat) : RetryTrace :=
  fetchWithRetryGo transport retries 0 retries

/-! ## JSON values and the JS host environment

`JSON.parse` and `Buffer.from(..., "base64").toString("utf8")` are Node
builtins, not repository code; they are abstracted as fields of `JsEnv`
(`none` models a thrown exception / failed decode). -/

/-- A parsed JSON value.  Numbers are modelled as `Int` (the expiry claim
and error fields the client reads are integers or strings). -/
inductive Json where
  | null
  | bool (b : Bool)
  | num (n : Int)
  | str (s : String)
  | arr (elems : List Json)
  | obj (fields : List (String × Json))

/-- JS truthiness of a JSON value (`undefined` is represented by
`Option.none` at use sites). -/
def jsTruthy : Json → Bool
  | .null => false
  | .bool b => b
  | .num n => !(n == 0)
  | .str s => !(s == "")
  | .arr _ => true
  | .obj _ => true

/-- First-match association-list lookup (objects produced by `JSON.parse`
have unique keys). -/
def lookupField : List (String × Json) → String → Option Json
  | [], _ => none
  | (k, v) :: rest, key => if k = key then some v else lookupField rest key

/-- Property lookup `value[key]` on a parsed JSON value: defined only on
objects; on any other JSON value (number, string, boolean, array) the
properties read by this client are absent, giving `undefined` (`none`). -/
def jGet : Json → String → Option Json
  | .obj fields, key => lookupField fields key
  | _, _ => none

/-- JS `a || b` on an optionally-present JSON value: keep `a` when present
and truthy, otherwise fall back. -/
def jsOrElse (v : Option Json) (fallback : Json) : Json :=
  match v with
  | some x => if jsTruthy x then x else fallback
  | none => fallback

/-- The JS host primitives the token guard and error paths call out to:
base64 decoding (`Buffer.from(s, "base64").toString("utf8")`; `none` models
a thrown exception) and `JSON.parse` (`none` models a thrown
`SyntaxError`). -/
structure JsEnv where
  b64decode : String → Option String
  jsonParse : String → Option Json

/-! ## Token guard (`src/utils/auth.ts`) -/

/-- `getApiToken`: trim the configured preference string; a missing or
empty (after trimming) value yields `null`. -/
def getApiToken (prefsApiToken : Option String) : Option String :=
  match prefsApiToken with
  | none => none
  | some raw =>
    let token := jsTrim raw
    if token.length > 0 then some token else none

/-- The character translation step of `base64UrlDecode`:
`-` becomes `+` and `_` becomes `/`. -/
def b64urlToStd (s : String) : String :=
  String.mk (s.data.map (fun c => if c = '-' then '+' else if c = '_' then '/' else c))

/-- The padding loop of `base64UrlDecode`: append `=` until the length is a
multiple of 4. -/
def padB64 (s : String) : String :=
  s ++ String.mk (List.replicate ((4 - s.length % 4) % 4) '=')

/-- `base64UrlDecode` from `auth.ts`: translate URL-safe base64 to standard
base64, pad, and decode via the host `Buffer` (whose failure gives `null`). -/
def base64UrlDecode (env : JsEnv) (segment : String) : Option String :=
  env.b64decode (padB64 (b64urlToStd segment))

/-- The normalized payload segment of a token: what `parseJwtClaims` hands
to the base64 decoder (`parts[1]` translated and padded). -/
def payloadSegmentOf (token : String) : String :=
  padB64 (b64urlToStd ((jsSplitDot token).getD 1 ""))

/-- `parseJwtClaims` from `auth.ts`: split on `.`; fewer than 2 segments,
a failed or empty (JS-falsy) base64 decode, or a failed `JSON.parse` all
yield `null`; otherwise the parsed payload value. -/
def parseJwtClaims (env : JsEnv) (token : String) : Option Json :=
  let parts := jsSplitDot token
  if parts.length < 2 then none
  else
    match env.b64decode (padB64 (b64urlToStd (parts.getD 1 ""))) with
    | none => none
    | some decoded => if decoded = "" then none else env.jsonParse decoded

/-- `tokenIsExpired` from `auth.ts` (`now` is `Math.floor(Date.now()/1000)`,
in seconds): `null` when the claims are unavailable or JS-falsy or the `exp`
claim is not a number, otherwise `exp <= now`. -/
def tokenIsExpired (env : JsEnv) (now : Int) (token : String) : Option Bool :=
  match parseJwtClaims env token with
  | none => none
  | some claims =>
    if jsTruthy claims then
      match jGet claims "exp" with
      | some (Json.num e) => some (decide (e ≤ now))
      | _ => none
    else none

/-- The toast shown by `ensureValidTokenOrToast` when it fails. -/
inductive AuthToast where
  | missingToken
  | expiredToken
deriving Repr, DecidableEq

/-- Result of `ensureValidTokenOrToast`: the returned token (or `null`) and
the toast shown, if any. -/
structure AuthOutcome where
  tokenResult : Option String
  toast : Option AuthToast
deriving Repr, DecidableEq

/-- `ensureValidTokenOrToast` from `auth.ts`: `null` plus a "missing" toast
when no token is configured; `null` plus an "expired" toast when
`tokenIsExpired` is strictly `true`; otherwise the token (the `false` and
`null` expiry cases both proceed optimistically). -/
def ensureValidTokenOrToast (env : JsEnv) (now : Int) (prefsApiToken : Option String) :
    AuthOutcome :=
  match getApiToken prefsApiToken with
  | none => ⟨none, some AuthToast.missingToken⟩
  | some token =>
    if tokenIsExpired env now token = some true then ⟨none, some AuthToast.expiredToken⟩
    else ⟨some token, none⟩

/-! ## Higher-level error interpretation (`query` / `linksQuery` in the client) -/

/-- What a non-2xx response produces in a higher-level operation: whether
the "Authentication Required" toast was shown, and the message of the
`Error` thrown (kept as the JSON value assigned to `errorMessage`; raw-text
and default messages are `Json.str`). -/
structure ErrorOutcome where
  authToast : Bool
  message : Json

/-- The non-`ok` branch of `KalpaClient.query`: parse the body text; use the
truthy `details` field, else the truthy `error` field, else the default
`"Query failed (status)"`; on a parse failure use the raw body text unless
it is empty.  A 401 status additionally shows the "Authentication Required"
toast. -/
def queryErrorOutcome (env : JsEnv) (r : HttpResponse) : ErrorOutcome :=
  let errorText := r.bodyText
  let defaultMsg : Json := Json.str ("Query failed (" ++ toString r.status ++ ")")
  let msg : Json :=
    match env.jsonParse errorText with
    | some j => jsOrElse (jGet j "details") (jsOrElse (jGet j "error") defaultMsg)
    | none => if errorText = "" then defaultMsg else Json.str errorText
  ⟨r.status == 401, msg⟩

/-- The non-`ok` branch of `KalpaClient.linksQuery`: no body parsing, no
status-specific toast; it throws
`Error("Links query failed: " + errorText)` directly. -/
def linksQueryErrorOutcome (r : HttpResponse) : ErrorOutcome :=
  ⟨false, Json.str ("Links query failed: " ++ r.bodyText)⟩

/-! ## Comparator facts -/

theorem creationCmp_htot : ∀ u v : KalpaLink, ¬ creationCmp u v < 0 → creationCmp v u ≤ 0 := by
  intro u v h
  simp only [creationCmp] at h ⊢
  omega

theorem creationCmp_htrans :
    ∀ u v w : KalpaLink, creationCmp u v ≤ 0 → creationCmp v w ≤ 0 → creationCmp u w ≤ 0 := by
  intro u v w h1 h2
  simp only [creationCmp] at h1 h2 ⊢
  omega

/-! ## Concrete fixtures used in example conjuncts and witnesses -/

/-- A generic page item created at time 5. -/
def linkG5 : KalpaLink :=
  ⟨5, "https://g.test/5", "G5", "g.test", some "page", false, false, none, none, none⟩
/-- A generic page item created at time 3. -/
def linkG3 : KalpaLink :=
  ⟨3, "https://g.test/3", "G3", "g.test", some "page", false, false, none, none, none⟩
/-- A video item created at time 4. -/
def linkV4 : KalpaLink :=
  ⟨4, "https://v.test/4", "V4", "v.test", some "youtube", false, false, none, none, none⟩
/-- A snippet item created at time 2. -/
def linkS2 : KalpaLink :=
  ⟨2, "https://s.test/2", "S2", "s.test", some "codepen", false, false, none, none, none⟩
/-- A snippet item created at time 1. -/
def linkS1 : KalpaLink :=
  ⟨1, "https://s.test/1", "S1", "s.test", some "codepen", false, false, none, none, none⟩

/-- Item titled "Go", created at time 1 (oldest, so recency alone would rank
it last). -/
def linkGo : KalpaLink :=
  ⟨1, "https://a.test/go", "Go", "a.test", none, false, false, none, none, none⟩
/-- Item titled "Going", created at time 2. -/
def linkGoing : KalpaLink :=
  ⟨2, "https://a.test/going", "Going", "a.test", none, false, false, none, none, none⟩
/-- Item titled "Foo Go Bar", created at time 3 (newest). -/
def linkFooGoBar : KalpaLink :=
  ⟨3, "https://a.test/foo", "Foo Go Bar", "a.test", none, false, false, none, none, none⟩

/-! ## Claims C4, C10, C2 -/

/-- C4: for every triple of sub-result pages, `fetchAll` returns their
concatenation in kind order (generic, video, snippet) stably sorted
descending by creation timestamp — the result is the stable sort of the
concatenation, a permutation of it, pairwise non-increasing in creation
time, and items of equal timestamp keep their original relative order
(their filtered subsequence is unchanged); and the concrete pages with
timestamps [5,3], [4], [2,1] merge to the sequence ordered [5,4,3,2,1]. -/
theorem claim_c4_merge_sort :
    (∀ g v s : List KalpaLink,
      useAllLinksFetch (.ok g) (.ok v) (.ok s) = .ok (sortByCreation (g ++ v ++ s))
      ∧ (sortByCreation (g ++ v ++ s)).Perm (g ++ v ++ s)
      ∧ (sortByCreation (g ++ v ++ s)).Pairwise
          (fun a b => b.creationTime ≤ a.creationTime)
      ∧ (∀ t : Int,
          (sortByCreation (g ++ v ++ s)).filter (fun x => x.creationTime == t)
            = (g ++ v ++ s).filter (fun x => x.creationTime == t)))
    ∧ useAllLinksFetch (.ok [linkG5, linkG3]) (.ok [linkV4]) (.ok [linkS2, linkS1])
        = .ok [linkG5, linkV4, linkG3, linkS2, linkS1] := by
  constructor
  · intro g v s
    refine ⟨rfl, stableSortWith_perm _ _, ?_, ?_⟩
    · refine (stableSortWith_pairwise creationCmp_htot creationCmp_htrans _).imp ?_
      intro a b h
      simp only [creationCmp] at h
      omega
    · intro t
      refine stableSortWith_filter ?_ _
      intro u v hu hv
      simp only [beq_iff_eq] at hu hv
      simp only [creationCmp, hu, hv]
      omega
  · decide

/-- C10: `sortByRelevance` returns a permutation of its input for every
list and every query (the input itself is immutable in this model, matching
the source's copy `[...links]` before sorting). -/
theorem claim_c10_sort_permutation :
    ∀ (links : List KalpaLink) (query : String),
      (sortByRelevance links query).Perm links := by
  intro links query
  by_cases h : query = ""
  · simp only [sortByRelevance, if_pos h]
    exact stableSortWith_perm _ _
  · simp only [sortByRelevance, if_neg h]
    exact stableSortWith_perm _ _

/-- C2: when the first sub-fetch of `useAllLinks` to fail raises an error
whose message marks it as authentication-required (it contains
`"Authentication"`, as the catch block tests), the whole call returns `[]`
without raising; when that error is not authentication-required it
propagates to the caller unchanged.  (Sub-fetches run sequentially, so the
error reaching the catch is the first failure.) -/
theorem claim_c2_auth_downgrade :
    ∀ (g v c : Except String (List KalpaLink)) (e : String),
      (g = .error e
        ∨ (∃ lg, g = .ok lg ∧ v = .error e)
        ∨ (∃ lg lv, g = .ok lg ∧ v = .ok lv ∧ c = .error e)) →
      (strIncludes e "Authentication" = true → useAllLinksFetch g v c = .ok [])
      ∧ (strIncludes e "Authentication" = false → useAllLinksFetch g v c = .error e) := by
  intro g v c e hfirst
  rcases hfirst with rfl | ⟨lg, rfl, rfl⟩ | ⟨lg, lv, rfl, rfl, rfl⟩ <;>
    constructor <;> intro hinc <;>
    simp [useAllLinksFetch, useAllLinksBody, hinc, Bind.bind, Except.bind]

/-- Witness for C2: an auth-marked failure of the second sub-fetch yields
`.ok []`; a transport-style error from the first sub-fetch propagates. -/
theorem claim_c2_auth_downgrade_witness :
    useAllLinksFetch (.ok []) (.error "Authentication required") (.ok []) = .ok []
    ∧ useAllLinksFetch (.error "ECONNRESET") (.ok []) (.ok []) = .error "ECONNRESET" := by
  constructor
  · exact (claim_c2_auth_downgrade (.ok []) (.error "Authentication required") (.ok [])
      "Authentication required" (Or.inr (Or.inl ⟨[], rfl, rfl⟩))).1 (by decide)
  · exact (claim_c2_auth_downgrade (.error "ECONNRESET") (.ok []) (.ok [])
      "ECONNRESET" (Or.inl rfl)).2 (by decide)

/-! ## Claims C1 and C7 (retry pipeline) -/

theorem range_succ_pow_map (n a : Nat) :
    (List.range (n + 1)).map (fun i => 300 * 2 ^ (a + i))
      = 300 * 2 ^ a :: (List.range n).map (fun i => 300 * 2 ^ (a + 1 + i)) := by
  rw [List.range_succ_eq_map, List.map_cons, List.map_map]
  refine congrArg₂ _ (by simp) ?_
  refine List.map_congr_left ?_
  intro i _
  simp only [Function.comp_apply]
  congr 1
  congr 1
  omega

theorem fetchWithRetryGo_allFail (transport : Nat → Except String HttpResponse)
    (errOf : Nat → String) (h : ∀ i, transport i = .error (errOf i)) (retries : Nat) :
    ∀ remaining attempt : Nat, retries = attempt + remaining →
      fetchWithRetryGo transport retries attempt remaining =
        ⟨.error (errOf retries), remaining + 1,
          (List.range remaining).map (fun i => 300 * 2 ^ (attempt + i)),
          some ("Could not reach Kalpa after " ++ toString (retries + 1) ++ " attempts")⟩ := by
  intro remaining
  induction remaining with
  | zero =>
    intro attempt ha
    have hra : retries = attempt := by omega
    subst hra
    simp [fetchWithRetryGo, h retries]
  | succ n ih =>
    intro attempt ha
    have ha' : retries = (attempt + 1) + n := by omega
    simp only [fetchWithRetryGo, h attempt, ih (attempt + 1) ha']
    rw [range_succ_pow_map]

/-- C1: for a transport that throws on every attempt, `fetchWithRetry` with
retry budget `retries` makes exactly `retries + 1` attempts, sleeps
`300 * 2 ^ i` ms after failed attempt `i` for each `i < retries` (and not
after the last attempt), shows the failure toast naming `retries + 1`
attempts, and rethrows the error captured on the last attempt. -/
theorem claim_c1_retry_exhaustion (transport : Nat → Except String HttpResponse)
    (errOf : Nat → String) (retries : Nat)
    (h : ∀ i, transport i = .error (errOf i)) :
    fetchWithRetry transport retries =
      ⟨.error (errOf retries), retries + 1,
        (List.range retries).map (fun i => 300 * 2 ^ i),
        some ("Could not reach Kalpa after " ++ toString (retries + 1) ++ " attempts")⟩ := by
  have hgo := fetchWithRetryGo_allFail transport errOf h retries retries 0 (by omega)
  simpa [fetchWithRetry] using hgo

/-- A transport that throws on every attempt. -/
def transportAllFail : Nat → Except String HttpResponse :=
  fun i => .error ("boom " ++ toString i)

/-- Witness for C1: with the default budget of 3 retries, 4 attempts are
made, the delays are 300, 600, 1200 ms, and the 4th attempt's error is
raised after the toast naming 4 attempts. -/
theorem claim_c1_retry_exhaustion_witness :
    fetchWithRetry transportAllFail 3 =
      ⟨.error "boom 3", 4, [300, 600, 1200],
        some "Could not reach Kalpa after 4 attempts"⟩ :=
  (claim_c1_retry_exhaustion transportAllFail (fun i => "boom " ++ toString i) 3
    (fun _ => rfl)).trans (by decide)

theorem fetchWithRetryGo_okAt (transport : Nat → Except String HttpResponse)
    (errOf : Nat → String) (resp : HttpResponse) (retries k : Nat)
    (hfail : ∀ i, i < k → transport i = .error (errOf i))
    (hok : transport k = .ok resp) :
    ∀ j remaining attempt : Nat, k = attempt + j → retries = attempt + remaining →
      j ≤ remaining →
      fetchWithRetryGo transport retries attempt remaining =
        ⟨.ok resp, j + 1, (List.range j).map (fun i => 300 * 2 ^ (attempt + i)), none⟩ := by
  intro j
  induction j with
  | zero =>
    intro remaining attempt hk _ _
    have hak : attempt = k := by omega
    subst hak
    cases remaining <;> simp [fetchWithRetryGo, hok]
  | succ n ih =>
    intro remaining attempt hk hr hj
    have hlt : attempt < k := by omega
    obtain ⟨m, rfl⟩ : ∃ m, remaining = m + 1 := ⟨remaining - 1, by omega⟩
    simp only [fetchWithRetryGo, hfail attempt hlt,
      ih m (attempt + 1) (by omega) (by omega) (by omega)]
    rw [range_succ_pow_map]

/-- C7: whenever the transport returns a response without throwing on
attempt `k` (with errors on all earlier attempts), `fetchWithRetry` returns
that response unmodified — whatever its status code, since the response is
never inspected — makes exactly `k + 1` attempts, and has slept exactly the
`k` backoff delays `300 * 2 ^ i` for `i < k`, with no failure toast. -/
theorem claim_c7_response_returned (transport : Nat → Except String HttpResponse)
    (errOf : Nat → String) (resp : HttpResponse) (retries k : Nat)
    (hk : k ≤ retries)
    (hfail : ∀ i, i < k → transport i = .error (errOf i))
    (hok : transport k = .ok resp) :
    fetchWithRetry transport retries =
      ⟨.ok resp, k + 1, (List.range k).map (fun i => 300 * 2 ^ i), none⟩ := by
  have hgo := fetchWithRetryGo_okAt transport errOf resp retries k hfail hok k retries 0
    (by omega) (by omega) hk
  simpa [fetchWithRetry] using hgo

/-- A transport that times out on the first attempt and then yields an HTTP
500 response (a non-2xx status, which must still be returned as-is). -/
def transportFlaky : Nat → Except String HttpResponse :=
  fun i => if i = 0 then .error "ETIMEDOUT" else .ok ⟨500, "Internal Server Error"⟩

/-- Witness for C7: success on attempt 2 of a 4-attempt budget returns the
500 response unmodified after exactly one 300 ms delay. -/
theorem claim_c7_response_returned_witness :
    fetchWithRetry transportFlaky 3 =
      ⟨.ok ⟨500, "Internal Server Error"⟩, 2, [300], none⟩ :=
  (claim_c7_response_returned transportFlaky (fun _ => "ETIMEDOUT")
    ⟨500, "Internal Server Error"⟩ 3 1 (by omega)
    (fun i hi => by
      have h0 : i = 0 := by omega
      subst h0
      rfl)
    rfl).trans (by decide)

/-! ## Claims C5 and C6 (token guard) -/

/-- C5: whenever the decoded claims carry a numeric `exp` field,
`tokenIsExpired` returns exactly `exp <= now` (so a past or equal-to-now
expiry gives `true` and a future one `false`); when the claims cannot be
decoded, or the `exp` field is absent or non-numeric, it returns `null`. -/
theorem claim_c5_token_expiry :
    ∀ (env : JsEnv) (now : Int) (token : String),
      (∀ (claims : Json) (e : Int), parseJwtClaims env token = some claims →
        jGet claims "exp" = some (Json.num e) →
        tokenIsExpired env now token = some (decide (e ≤ now))
        ∧ (e ≤ now → tokenIsExpired env now token = some true)
        ∧ (now < e → tokenIsExpired env now token = some false))
      ∧ (parseJwtClaims env token = none → tokenIsExpired env now token = none)
      ∧ (∀ claims : Json, parseJwtClaims env token = some claims →
          (∀ e : Int, jGet claims "exp" ≠ some (Json.num e)) →
          tokenIsExpired env now token = none) := by
  intro env now token
  refine ⟨?_, ?_, ?_⟩
  · intro claims e hp hg
    cases claims with
    | obj fields =>
      have : tokenIsExpired env now token = some (decide (e ≤ now)) := by
        simp [tokenIsExpired, hp, jsTruthy, hg]
      refine ⟨this, ?_, ?_⟩
      · intro hle
        rw [this, decide_eq_true hle]
      · intro hlt
        rw [this, decide_eq_false (by omega)]
    | null => simp [jGet] at hg
    | bool b => simp [jGet] at hg
    | num n => simp [jGet] at hg
    | str s => simp [jGet] at hg
    | arr elems => simp [jGet] at hg
  · intro hp
    simp [tokenIsExpired, hp]
  · intro claims hp hne
    cases htr : jsTruthy claims
    · simp [tokenIsExpired, hp, htr]
    · cases hg : jGet claims "exp" with
      | none => simp [tokenIsExpired, hp, htr, hg]
      | some j =>
        cases j with
        | num e => exact absurd hg (hne e)
        | null => simp [tokenIsExpired, hp, htr, hg]
        | bool b => simp [tokenIsExpired, hp, htr, hg]
        | str s => simp [tokenIsExpired, hp, htr, hg]
        | arr elems => simp [tokenIsExpired, hp, htr, hg]
        | obj fields => simp [tokenIsExpired, hp, htr, hg]

/-- A host environment whose base64 decoder yields the fixed payload text
`"CLAIMS"`, parsed as the object with numeric claim `exp = 100`. -/
def envExp : JsEnv :=
  ⟨fun _ => some "CLAIMS",
   fun s => if s = "CLAIMS" then some (Json.obj [("exp", Json.num 100)]) else none⟩

/-- Witness for C5: with `exp = 100`, the token is expired at `now = 100`
(equal-to-now counts as expired) and not expired at `now = 99`. -/
theorem claim_c5_token_expiry_witness :
    tokenIsExpired envExp 100 "h.p" = some true
    ∧ tokenIsExpired envExp 99 "h.p" = some false := by
  constructor
  · exact ((claim_c5_token_expiry envExp 100 "h.p").1
      (Json.obj [("exp", Json.num 100)]) 100 rfl rfl).2.1 (by omega)
  · exact ((claim_c5_token_expiry envExp 99 "h.p").1
      (Json.obj [("exp", Json.num 100)]) 100 rfl rfl).2.2 (by omega)

/-- C6: `parseJwtClaims` returns `null` exactly on malformed credentials —
fewer than two dot-separated segments, a failed or empty base64 decode of
the payload segment, or a payload that does not parse as JSON; for any such
credential that is configured, `ensureValidTokenOrToast` still returns the
credential (unknown expiry is treated optimistically); and it returns
`null` only when no credential is configured or `tokenIsExpired` is
strictly `true`. -/
theorem claim_c6_malformed_optimistic :
    (∀ (env : JsEnv) (token : String),
      parseJwtClaims env token = none ↔
        ((jsSplitDot token).length < 2
         ∨ env.b64decode (payloadSegmentOf token) = none
         ∨ env.b64decode (payloadSegmentOf token) = some ""
         ∨ (∃ d, env.b64decode (payloadSegmentOf token) = some d ∧ d ≠ ""
             ∧ env.jsonParse d = none)))
    ∧ (∀ (env : JsEnv) (now : Int) (prefsApiToken : Option String) (token : String),
        getApiToken prefsApiToken = some token →
        parseJwtClaims env token = none →
        (ensureValidTokenOrToast env now prefsApiToken).tokenResult = some token)
    ∧ (∀ (env : JsEnv) (now : Int) (prefsApiToken : Option String),
        (ensureValidTokenOrToast env now prefsApiToken).tokenResult = none →
        getApiToken prefsApiToken = none
        ∨ ∃ token, getApiToken prefsApiToken = some token
            ∧ tokenIsExpired env now token = some true) := by
  refine ⟨?_, ?_, ?_⟩
  · intro env token
    simp only [parseJwtClaims, payloadSegmentOf]
    by_cases hlen : (jsSplitDot token).length < 2
    · simp only [if_pos hlen]
      constructor
      · intro _
        exact Or.inl hlen
      · intro _
        trivial
    · simp only [if_neg hlen]
      generalize env.b64decode (padB64 (b64urlToStd ((jsSplitDot token).getD 1 ""))) = ob
      cases ob with
      | none => simp [hlen]
      | some d =>
        by_cases hd : d = ""
        · subst hd
          simp [hlen]
        · cases hj : env.jsonParse d with
          | none => simp [hlen, hd, hj]
          | some j => simp [hlen, hd, hj]
  · intro env now prefsApiToken token htok hparse
    have hexp : tokenIsExpired env now token = none := by
      simp [tokenIsExpired, hparse]
    simp [ensureValidTokenOrToast, htok, hexp]
  · intro env now prefsApiToken hout
    cases htok : getApiToken prefsApiToken with
    | none => exact Or.inl rfl
    | some token =>
      refine Or.inr ⟨token, rfl, ?_⟩
      by_cases hexp : tokenIsExpired env now token = some true
      · exact hexp
      · exfalso
        simp [ensureValidTokenOrToast, htok, hexp] at hout

/-- Witness for C6: the dotless credential `"garbage"` decodes to `null`
claims, yet when configured it is still returned by the guard. -/
theorem claim_c6_malformed_optimistic_witness :
    parseJwtClaims envExp "garbage" = none
    ∧ (ensureValidTokenOrToast envExp 0 (some "garbage")).tokenResult = some "garbage" := by
  have hnone : parseJwtClaims envExp "garbage" = none :=
    (claim_c6_malformed_optimistic.1 envExp "garbage").mpr (Or.inl (by decide))
  exact ⟨hnone,
    claim_c6_malformed_optimistic.2.1 envExp 0 (some "garbage") "garbage" rfl hnone⟩

/-! ## Claim C8 (matchesSearch) -/

/-- C8: the empty query matches every item; a non-empty query matches an
item iff the lower-cased query occurs in some derived keyword, or in the
(lower-cased) title, URL, or summary preview. -/
theorem claim_c8_matches_search :
    (∀ link : KalpaLink, matchesSearch link "" = true)
    ∧ (∀ (link : KalpaLink) (query : String), query ≠ "" →
        (matchesSearch link query = true ↔
          ((∃ k ∈ extractKeywords link, strIncludes k (jsToLower query) = true)
           ∨ strIncludes (jsToLower link.title) (jsToLower query) = true
           ∨ strIncludes (jsToLower link.url) (jsToLower query) = true
           ∨ (∃ s, link.summary_preview = some s
               ∧ strIncludes (jsToLower s) (jsToLower query) = true)))) := by
  constructor
  · intro link
    simp [matchesSearch]
  · intro link query hq
    cases hsp : link.summary_preview with
    | none => simp [matchesSearch, hq, hsp, List.any_eq_true]
    | some s => simp [matchesSearch, hq, hsp, List.any_eq_true]

/-- Witness for C8: the non-empty-query characterisation instantiated at a
concrete item and the query `"go"`. -/
theorem claim_c8_matches_search_witness :
    matchesSearch linkGo "go" = true ↔
      ((∃ k ∈ extractKeywords linkGo, strIncludes k (jsToLower "go") = true)
       ∨ strIncludes (jsToLower linkGo.title) (jsToLower "go") = true
       ∨ strIncludes (jsToLower linkGo.url) (jsToLower "go") = true
       ∨ (∃ s, linkGo.summary_preview = some s
           ∧ strIncludes (jsToLower s) (jsToLower "go") = true)) :=
  claim_c8_matches_search.2 linkGo "go" (by decide)

/-! ## Claim C3 (relevance ranking) -/

theorem titleExact_starts {t lq : String} (h : (t == lq) = true) :
    strStartsWith t lq = true := by
  have he : t = lq := by simpa using h
  subst he
  simpa [strStartsWith] using isPrefixL_self t.data

theorem titleStarts_contains {t lq : String} (h : strStartsWith t lq = true) :
    strIncludes t lq = true := by
  simp only [strStartsWith] at h
  simp only [strIncludes]
  exact containsL_of_isPrefixL h

/-- The nested match tiers of the relevance comparator collapse to a score:
3 exact, 2 starts-with, 1 contains, 0 none (each tier implies the next, so
the flags are nested). -/
def relScore (lowerQuery : String) (a : KalpaLink) : Nat :=
  if jsToLower a.title == lowerQuery then 3
  else if strStartsWith (jsToLower a.title) lowerQuery then 2
  else if strIncludes (jsToLower a.title) lowerQuery then 1
  else 0

theorem relevanceCmp_lt_iff (lq : String) (a b : KalpaLink) :
    relevanceCmp lq a b < 0 ↔
      (relScore lq b < relScore lq a
       ∨ (relScore lq a = relScore lq b ∧ b.creationTime < a.creationTime)) := by
  cases haE : (jsToLower a.title == lq) <;> cases hbE : (jsToLower b.title == lq) <;>
    cases haS : strStartsWith (jsToLower a.title) lq <;>
    cases hbS : strStartsWith (jsToLower b.title) lq <;>
    cases haC : strIncludes (jsToLower a.title) lq <;>
    cases hbC : strIncludes (jsToLower b.title) lq <;>
    first
      | exact Bool.noConfusion ((titleExact_starts haE).symm.trans haS)
      | exact Bool.noConfusion ((titleExact_starts hbE).symm.trans hbS)
      | exact Bool.noConfusion ((titleStarts_contains haS).symm.trans haC)
      | exact Bool.noConfusion ((titleStarts_contains hbS).symm.trans hbC)
      | simp [relevanceCmp, relScore, haE, hbE, haS, hbS, haC, hbC]

theorem relevanceCmp_le_iff (lq : String) (a b : KalpaLink) :
    relevanceCmp lq a b ≤ 0 ↔
      (relScore lq b < relScore lq a
       ∨ (relScore lq a = relScore lq b ∧ b.creationTime ≤ a.creationTime)) := by
  cases haE : (jsToLower a.title == lq) <;> cases hbE : (jsToLower b.title == lq) <;>
    cases haS : strStartsWith (jsToLower a.title) lq <;>
    cases hbS : strStartsWith (jsToLower b.title) lq <;>
    cases haC : strIncludes (jsToLower a.title) lq <;>
    cases hbC : strIncludes (jsToLower b.title) lq <;>
    first
      | exact Bool.noConfusion ((titleExact_starts haE).symm.trans haS)
      | exact Bool.noConfusion ((titleExact_starts hbE).symm.trans hbS)
      | exact Bool.noConfusion ((titleStarts_contains haS).symm.trans haC)
      | exact Bool.noConfusion ((titleStarts_contains hbS).symm.trans hbC)
      | simp [relevanceCmp, relScore, haE, hbE, haS, hbS, haC, hbC]

theorem relevanceCmp_htot (lq : String) :
    ∀ u v : KalpaLink, ¬ relevanceCmp lq u v < 0 → relevanceCmp lq v u ≤ 0 := by
  intro u v h
  rw [relevanceCmp_lt_iff] at h
  rw [relevanceCmp_le_iff]
  omega

theorem relevanceCmp_htrans (lq : String) :
    ∀ u v w : KalpaLink, relevanceCmp lq u v ≤ 0 → relevanceCmp lq v w ≤ 0 →
      relevanceCmp lq u w ≤ 0 := by
  intro u v w h1 h2
  rw [relevanceCmp_le_iff] at h1 h2 ⊢
  omega

/-- "Title equals the lower-cased query" (exact case-insensitive match). -/
def titleExactB (lq : String) (a : KalpaLink) : Bool := jsToLower a.title == lq
/-- "Title starts with the lower-cased query" (case-insensitive prefix). -/
def titleStartsB (lq : String) (a : KalpaLink) : Bool :=
  strStartsWith (jsToLower a.title) lq
/-- "Title contains the lower-cased query" (case-insensitive substring). -/
def titleContainsB (lq : String) (a : KalpaLink) : Bool :=
  strIncludes (jsToLower a.title) lq

/-- The spec's tiered "ranks strictly before" relation: exact beats
non-exact; among equal exactness, prefix beats non-prefix; among equal
prefix status, contains beats non-contains; otherwise strictly newer
creation time. -/
def specPrecedes (lq : String) (a b : KalpaLink) : Prop :=
  (titleExactB lq a = true ∧ titleExactB lq b = false)
  ∨ (titleExactB lq a = titleExactB lq b
     ∧ ((titleStartsB lq a = true ∧ titleStartsB lq b = false)
        ∨ (titleStartsB lq a = titleStartsB lq b
           ∧ ((titleContainsB lq a = true ∧ titleContainsB lq b = false)
              ∨ (titleContainsB lq a = titleContainsB lq b
                 ∧ b.creationTime < a.creationTime)))))

theorem relevanceCmp_lt_iff_specPrecedes (lq : String) (a b : KalpaLink) :
    relevanceCmp lq a b < 0 ↔ specPrecedes lq a b := by
  cases haE : (jsToLower a.title == lq) <;> cases hbE : (jsToLower b.title == lq) <;>
    cases haS : strStartsWith (jsToLower a.title) lq <;>
    cases hbS : strStartsWith (jsToLower b.title) lq <;>
    cases haC : strIncludes (jsToLower a.title) lq <;>
    cases hbC : strIncludes (jsToLower b.title) lq <;>
    first
      | exact Bool.noConfusion ((titleExact_starts haE).symm.trans haS)
      | exact Bool.noConfusion ((titleExact_starts hbE).symm.trans hbS)
      | exact Bool.noConfusion ((titleStarts_contains haS).symm.trans haC)
      | exact Bool.noConfusion ((titleStarts_contains hbS).symm.trans hbC)
      | simp [relevanceCmp, specPrecedes, titleExactB, titleStartsB, titleContainsB,
          haE, hbE, haS, hbS, haC, hbC]

/-- C3: the ranking comparator places `a` strictly before `b` exactly
according to the spec's strict precedence tiers (exact, then prefix, then
contains, then newer creation time); every sorted output is free of
out-of-order pairs under that relation; and ranking the items titled "Go",
"Going", "Foo Go Bar" (created oldest-to-newest, so recency would reverse
them) for the query "go" yields exactly that order. -/
theorem claim_c3_relevance_order :
    (∀ (lowerQuery : String) (a b : KalpaLink),
      relevanceCmp lowerQuery a b < 0 ↔ specPrecedes lowerQuery a b)
    ∧ (∀ (query : String) (links : List KalpaLink), query ≠ "" →
        (sortByRelevance links query).Pairwise
          (fun a b => ¬ specPrecedes (jsToLower query) b a))
    ∧ (sortByRelevance [linkGo, linkGoing, linkFooGoBar] "go").map (fun l => l.title)
        = ["Go", "Going", "Foo Go Bar"] := by
  refine ⟨relevanceCmp_lt_iff_specPrecedes, ?_, by decide⟩
  intro query links hq
  simp only [sortByRelevance, if_neg hq]
  refine (stableSortWith_pairwise (relevanceCmp_htot (jsToLower query))
    (relevanceCmp_htrans (jsToLower query)) links).imp ?_
  intro a b hab hspec
  rw [← relevanceCmp_lt_iff_specPrecedes] at hspec
  rw [relevanceCmp_le_iff] at hab
  rw [relevanceCmp_lt_iff] at hspec
  omega

/-- Witness for C3: the sorted-output conjunct instantiated at the concrete
three-item list and the query "go". -/
theorem claim_c3_relevance_order_witness :
    (sortByRelevance [linkGo, linkGoing, linkFooGoBar] "go").Pairwise
      (fun a b => ¬ specPrecedes (jsToLower "go") b a) :=
  claim_c3_relevance_order.2.1 "go" [linkGo, linkGoing, linkFooGoBar] (by decide)

/-! ## Claim C9 (higher-level error interpretation)

The claim asserts the 401-toast plus `details`/`error` extraction behaviour
for *every* higher-level operation "including the links-list queries used by
fetchAll".  The generic `query` path behaves as claimed, but `linksQuery`
(which serves `getLinks` / `getVideos` / `getCodepenLinks`, i.e. all of
`fetchAll`'s sub-fetches) shows no auth toast and throws the raw body text
behind a `"Links query failed: "` label without any extraction. -/

/-- A host environment that parses the concrete 401 error body used in the
counterexample. -/
def env9 : JsEnv :=
  ⟨fun _ => none,
   fun s =>
     if s = "\x7b\"error\":\"bad token\"\x7d" then
       some (Json.obj [("error", Json.str "bad token")])
     else none⟩

/-- A 401 response whose body is structured JSON carrying an `error` field. -/
def resp401 : HttpResponse := ⟨401, "\x7b\"error\":\"bad token\"\x7d"⟩

/-- Counterexample to C9 as stated: on a 401 response with a structured
error body, the generic `query` path shows the auth toast and raises the
extracted message `"bad token"`, but the links-list path — explicitly
included in the claim — shows no auth toast and raises the prefixed raw
body text, which differs from the extracted message. -/
theorem claim_c9_links_query_counterexample :
    (queryErrorOutcome env9 resp401).authToast = true
    ∧ (queryErrorOutcome env9 resp401).message = Json.str "bad token"
    ∧ (linksQueryErrorOutcome resp401).authToast = false
    ∧ (linksQueryErrorOutcome resp401).message
        = Json.str ("Links query failed: " ++ resp401.bodyText)
    ∧ ("Links query failed: " ++ resp401.bodyText) ≠ "bad token" := by
  exact ⟨rfl, rfl, rfl, rfl, by decide⟩

/-- C9 as amended: for every non-2xx response, the generic `query` error
path shows the "Authentication Required" toast exactly on status 401, and
raises a message taken from the body's truthy `details` field, else its
truthy `error` field, else — or when the body fails to parse — the raw body
text, else the default `"Query failed (status)"`, with every case total (no
secondary error); whereas the links-list error path used by `fetchAll`
shows no status-specific toast and raises
`"Links query failed: " ++ body` without extraction. -/
theorem claim_c9_error_paths_amended :
    ∀ (env : JsEnv) (r : HttpResponse), r.isOk = false →
      ((queryErrorOutcome env r).authToast = true ↔ r.status = 401)
      ∧ (∀ j d, env.jsonParse r.bodyText = some j → jGet j "details" = some d →
          jsTruthy d = true → (queryErrorOutcome env r).message = d)
      ∧ (∀ j d, env.jsonParse r.bodyText = some j →
          (∀ x, jGet j "details" = some x → jsTruthy x = false) →
          jGet j "error" = some d → jsTruthy d = true →
          (queryErrorOutcome env r).message = d)
      ∧ (∀ j, env.jsonParse r.bodyText = some j →
          (∀ x, jGet j "details" = some x → jsTruthy x = false) →
          (∀ x, jGet j "error" = some x → jsTruthy x = false) →
          (queryErrorOutcome env r).message
            = Json.str ("Query failed (" ++ toString r.status ++ ")"))
      ∧ (env.jsonParse r.bodyText = none → r.bodyText ≠ "" →
          (queryErrorOutcome env r).message = Json.str r.bodyText)
      ∧ (env.jsonParse r.bodyText = none → r.bodyText = "" →
          (queryErrorOutcome env r).message
            = Json.str ("Query failed (" ++ toString r.status ++ ")"))
      ∧ linksQueryErrorOutcome r
          = ⟨false, Json.str ("Links query failed: " ++ r.bodyText)⟩ := by
  intro env r _
  refine ⟨?_, ?_, ?_, ?_, ?_, ?_, rfl⟩
  · simp [queryErrorOutcome]
  · intro j d hj hd htr
    simp [queryErrorOutcome, hj, hd, jsOrElse, htr]
  · intro j d hj hdet herr htr
    cases hx : jGet j "details" with
    | none => simp [queryErrorOutcome, hj, hx, herr, jsOrElse, htr]
    | some x =>
      have hfx : jsTruthy x = false := hdet x hx
      simp [queryErrorOutcome, hj, hx, herr, jsOrElse, hfx, htr]
  · intro j hj hdet herr
    cases hx : jGet j "details" with
    | none =>
      cases hy : jGet j "error" with
      | none => simp [queryErrorOutcome, hj, hx, hy, jsOrElse]
      | some y =>
        have hfy : jsTruthy y = false := herr y hy
        simp [queryErrorOutcome, hj, hx, hy, jsOrElse, hfy]
    | some x =>
      have hfx : jsTruthy x = false := hdet x hx
      cases hy : jGet j "error" with
      | none => simp [queryErrorOutcome, hj, hx, hy, jsOrElse, hfx]
      | some y =>
        have hfy : jsTruthy y = false := herr y hy
        simp [queryErrorOutcome, hj, hx, hy, jsOrElse, hfx, hfy]
  · intro hj hne
    simp [queryErrorOutcome, hj, hne]
  · intro hj hemp
    rw [hemp] at hj
    simp [queryErrorOutcome, hemp, hj]

/-- Witness for the amended C9, at the concrete 401 response: the toast
shows (status is 401), the extracted message is the `error` field, and the
links-list path raises the labelled raw text with no toast. -/
theorem claim_c9_error_paths_amended_witness :
    ((queryErrorOutcome env9 resp401).authToast = true ↔ resp401.status = 401)
    ∧ linksQueryErrorOutcome resp401
        = ⟨false, Json.str ("Links query failed: " ++ resp401.bodyText)⟩ := by
  have h := claim_c9_error_paths_amended env9 resp401 (by decide)
  exact ⟨h.1, h.2.2.2.2.2.2⟩

end Kalpa
